import Mathlib

/-!
Shallow embedding of the core of `telegram_transcript_a_reply_into_message_command.py`:
the low-priority edit scheduler, the transcription job pipeline, the progress
estimator and the startup resume scanner.  Python strings are modelled as Lean
`String` (a list of unicode scalar values, matching Python's code-point view);
Python `str` slicing, `in`, `startswith`, `endswith`, `strip` and `lower` are
modelled by the `py*` helpers below, all operating on `String.data`.
Wall-clock instants (`time.monotonic()` values) are modelled as rationals.
-/

/-- Whitespace characters recognised by Python's `str.strip()` (ASCII subset;
the source only ever strips ASCII whitespace). -/
def isPySpace (c : Char) : Bool :=
  c = ' ' || c = '\t' || c = '\n' || c = '\r' || c = '\x0b' || c = '\x0c'

/-- Model of Python `sub in s` on code-point lists. -/
def listContains (haystack needle : List Char) : Bool :=
  match haystack with
  | [] => needle.isEmpty
  | c :: rest => needle.isPrefixOf (c :: rest) || listContains rest needle

/-- Model of Python `sub in s`. -/
def pyContains (s sub : String) : Bool := listContains s.data sub.data

/-- Model of Python `s.startswith(p)`. -/
def pyStartsWith (s p : String) : Bool := p.data.isPrefixOf s.data

/-- Model of Python `s.endswith(p)`. -/
def pyEndsWith (s p : String) : Bool := p.data.isSuffixOf s.data

/-- Model of Python `s[:n]` (first `n` code points). -/
def pySlice (s : String) (n : Nat) : String := ⟨s.data.take n⟩

/-- Model of Python `s.strip()`. -/
def pyStrip (s : String) : String :=
  ⟨((s.data.dropWhile isPySpace).reverse.dropWhile isPySpace).reverse⟩

/-- Model of Python `s.lower()` (ASCII case folding, enough for model names). -/
def pyLower (s : String) : String := ⟨s.data.map Char.toLower⟩

/-- Digits-only natural number literal parser (helper for `pyParseInt`). -/
def parseNatDigits (l : List Char) : Option Nat :=
  if l = [] || !l.all Char.isDigit then none
  else some (l.foldl (fun acc c => acc * 10 + (c.toNat - 48)) 0)

/-- Model of Python `int(s)` on the strings ffmpeg emits: optional sign,
then decimal digits; anything else raises (returns `none`). -/
def pyParseInt (s : String) : Option Int :=
  match (pyStrip s).data with
  | '-' :: rest => (parseNatDigits rest).map (fun n => -(n : Int))
  | '+' :: rest => (parseNatDigits rest).map (fun n => (n : Int))
  | l => (parseNatDigits l).map (fun n => (n : Int))

/-- `TELEGRAM_MAX_MESSAGE_LEN` (source line 49). -/
def TELEGRAM_MAX_MESSAGE_LEN : Nat := 4096

/-- `MODEL_ORDER` (source line 52): Whisper models from worst to best. -/
def MODEL_ORDER : List String := ["tiny", "base", "small", "medium", "turbo", "large"]

/-- `_utf16_len` (source lines 420-422): string length in UTF-16 code units. -/
def utf16_len (s : String) : Nat :=
  (s.data.map (fun c => if 0xFFFF < c.toNat then 2 else 1)).sum

/-- `model_quality_rank` (source lines 425-433): index in `MODEL_ORDER`,
`-1` for an empty or unknown model name. -/
def model_quality_rank (model_name : String) : Int :=
  if model_name = "" then -1
  else
    match MODEL_ORDER.indexOf? (pyLower (pyStrip model_name)) with
    | some i => (i : Int)
    | none => -1

/-- Word characters of the regex `\w` in `parse_transcription_message_model`
(ASCII letters, digits and underscore; enough for every name in `MODEL_ORDER`). -/
def isWordChar (c : Char) : Bool := c.isAlphanum || c = '_'

/-- Tail of the regex `🤖 Транскрипция\s*\(model\s+(\w+)\)\s*:` after the literal
head: parses `\s*\(model\s+(\w+)\)\s*:` and returns the captured word.  The
regex is deterministic (each `\s*`/`\s+`/`\w+` is followed by a character it
cannot match), so greedy scanning without backtracking is exact. -/
def parseModelTail (l : List Char) : Option (List Char) :=
  let l1 := l.dropWhile isPySpace
  if ("(model".data).isPrefixOf l1 then
    let l2 := l1.drop 6
    let sp := l2.takeWhile isPySpace
    if sp = [] then none
    else
      let l3 := l2.dropWhile isPySpace
      let w := l3.takeWhile isWordChar
      if w = [] then none
      else
        match l3.dropWhile isWordChar with
        | ')' :: afterParen =>
          match afterParen.dropWhile isPySpace with
          | ':' :: _ => some w
          | _ => none
        | _ => none
  else none

/-- `re.search` of the pattern of `parse_transcription_message_model`: leftmost
occurrence of the literal `🤖 Транскрипция` whose continuation matches the
rest of the pattern. -/
def searchModelWord (l : List Char) : Option (List Char) :=
  match l with
  | [] => none
  | _ :: rest =>
    if ("🤖 Транскрипция".data).isPrefixOf l then
      match parseModelTail (l.drop ("🤖 Транскрипция".data).length) with
      | some w => some w
      | none => searchModelWord rest
    else searchModelWord rest

/-- `parse_transcription_message_model` (source lines 436-450): extract the
model name from a transcription message; plain `🤖 Транскрипция:` without a
`(model ...)` marker means the legacy model `small`; otherwise `none`. -/
def parse_transcription_message_model (text : String) : Option String :=
  if text = "" || !pyContains text "🤖 Транскрипция" then none
  else
    match searchModelWord text.data with
    | some w => some (pyLower (pyStrip ⟨w⟩))
    | none =>
      if pyContains text "🤖 Транскрипция:" && !pyContains text "(model " then some "small"
      else none

/-- `make_transcription_message` (source lines 453-468): the final message text
together with the blockquote entity's (utf16-offset, utf16-length). -/
def make_transcription_message (text model_name : String) : String × Nat × Nat :=
  let head := "🤖 Транскрипция (model " ++ model_name ++ "):\n"
  let body0 := pyStrip text
  let body := if body0 = "" then " " else body0
  let full_text := head ++ body
  (full_text, utf16_len head, utf16_len body)

/-- Head of `build_progress_text`'s output (source line 734). -/
def PROGRESS_HEAD : String := "/transcription 🤖 Транскрипция: "

/-- `build_progress_text` (source lines 733-760).  Note: the note-carrying
branch returns `body` directly, without the `[:TELEGRAM_MAX_MESSAGE_LEN]`
clip; only the percent branch clips. -/
def build_progress_text (stage : String) (pct : Option Int) (done_ts : Option String) (note : Option String) : String :=
  let labels :=
    if stage = "download" then ("Скачивание медиа", "Дата завершения скачивания")
    else if stage = "convert" then ("Конвертация медиа", "Дата завершения конвектирования")
    else if stage = "transcribe" then ("Извлечение текста", "Дата завершения")
    else (stage, "Дата")
  let p := labels.1
  let ts_label := labels.2
  let noteVal := note.getD ""
  if noteVal ≠ "" then
    let body := PROGRESS_HEAD ++ p ++ " (" ++ noteVal ++ ")"
    match done_ts with
    | some t => if t ≠ "" then body ++ "\n" ++ ts_label ++ ": " ++ t else body ++ "\n" ++ ts_label ++ ": —"
    | none => body ++ "\n" ++ ts_label ++ ": —"
  else
    let pct_str := match pct with | some v => toString v ++ "%" | none => "0%"
    let ts_str := match done_ts with | some t => if t ≠ "" then t else "—" | none => "—"
    let body := PROGRESS_HEAD ++ p ++ " " ++ pct_str ++ "\n" ++ ts_label ++ ": " ++ ts_str
    pySlice body TELEGRAM_MAX_MESSAGE_LEN

/-- Fixed head of `format_error`'s output (source line 818). -/
def ERR_HEAD : String := "🤖 Транскрипция провалена из-за ошибки:\n```\n"

/-- Fixed tail of `format_error`'s output (source line 818). -/
def ERR_TAIL : String := "\n```"

/-- `format_error` (source lines 812-818): `tb_raw` models the joined
`traceback.format_exception_only` text, `fallback` models `str(err)` (used
only when the stripped traceback is empty); the traceback is clipped to
2000 code points. -/
def format_error (tb_raw fallback : String) : String :=
  let tb0 := pyStrip tb_raw
  let tb1 := if tb0 = "" then fallback else tb0
  ERR_HEAD ++ pySlice tb1 2000 ++ ERR_TAIL

/-- The clamped percentage `int(min(99, max(0, (num / den) * 100)))` used by
the download callback (line 940), the ffmpeg progress parser (line 717) and
the transcription segment loop (line 1032).  `int()` on a non-negative float
is the floor. -/
def ratio_pct (num den : ℚ) : Int := ⌊min 99 (max 0 (num / den * 100))⌋

/-- Displayed download percentage (source line 940). -/
def dl_pct (current total : ℚ) : Int := ratio_pct current total

/-- The ETA computed by `dl_progress` (source lines 942-953), in seconds:
from observed byte throughput, only once `current > 0`, `elapsed ≥ 0.5`
and the observed speed is positive. -/
def dl_eta (current total elapsed : ℚ) : Option ℚ :=
  if 0 < current then
    if 1/2 ≤ elapsed then
      let speed := current / elapsed
      let remaining := total - current
      if 0 < speed then some (remaining / speed) else none
    else none
  else none

/-- The ETA computed by `transcribe_blocking` (source lines 1036-1044), in
seconds: `(100 - pct) / pct * elapsed`, only once `pct > 0` and
`elapsed ≥ 0.5`. -/
def transcribe_eta (pct : Int) (elapsed : ℚ) : Option ℚ :=
  if 0 < pct then
    if 1/2 ≤ elapsed then some ((100 - (pct : ℚ)) / (pct : ℚ) * elapsed)
    else none
  else none

/-- `dur and dur > 0` for the probed duration (source line 713). -/
def durPos : Option ℚ → Bool
  | some d => decide (0 < d)
  | none => false

/-- One iteration of the ffmpeg `-progress pipe:1` reader (source lines
710-724): an `out_time_ms=` line yields the clamped ratio percentage
(deduplicated against `last_pct`); a `progress=...end` line yields the
explicit completion value 100; anything else yields nothing.  `out_time_ms`
is in microseconds, hence the division by 1000000. -/
def ffmpeg_progress_line (dur : Option ℚ) (last_pct : Int) (line : String) : Option Int :=
  if pyStartsWith line "out_time_ms=" && durPos dur then
    match pyParseInt ⟨line.data.drop 12⟩, dur with
    | some ms, some d =>
      let pct := ratio_pct ((ms : ℚ) / 1000000) d
      if pct ≠ last_pct then some pct else none
    | _, _ => none
  else if pyStartsWith line "progress=" && pyEndsWith line "end" then some 100
  else none

/-! ## Job pipeline (`process_transcription_job`, source lines 863-1112)

The pipeline's interactions with the outside world (Telegram edits, the
download, the ffmpeg subprocess, the ASR engine, file unlink outcomes) are
parameters of `JobEnv`; the function below reproduces the control flow of
the Python coroutine: the `try` body with its early returns, the single
`except` handler issuing one diagnostic edit, and the `finally` cleanup
that unlinks every file in the job directory, swallowing unlink errors. -/

/-- Outcomes of the environment for one run of `process_transcription_job`. -/
structure JobEnv where
  /-- `is_resume` argument. -/
  isResume : Bool
  /-- Whether the initial high-priority edit (line 924) succeeds. -/
  firstEditOk : Bool
  /-- Whether `client.download_media` returns a truthy path (line 966). -/
  downloadOk : Bool
  /-- Exit code of the ffmpeg conversion subprocess (line 726). -/
  convertRc : Nat
  /-- The joined segment text returned by the ASR engine (line 1052). -/
  transcribeText : String
  /-- `info.language` detected by the ASR engine. -/
  detectedLang : Option String
  /-- `lang_allowed` argument. -/
  langAllowed : Option (List String)
  /-- `model_name` argument. -/
  modelName : String
  /-- Whether the final high-priority edit (line 1077/1084) succeeds. -/
  finalEditOk : Bool
  /-- Workspace files whose `unlink` raises during cleanup (line 1103). -/
  unlinkFailures : List String

/-- One attempted high-priority edit: the text passed to the transport
(after the `[:TELEGRAM_MAX_MESSAGE_LEN]` trim of `safe_edit_high_priority`,
line 778) and the content of the attached file, if any. -/
structure HighEditAttempt where
  text : String
  file : Option String
deriving DecidableEq

/-- Observable outcome of one `process_transcription_job` run. -/
structure JobResult where
  /-- `"done"`, `"error"`, or `"aborted"` (a failed high-priority edit makes
  the job return silently, lines 925 and 1078-1079). -/
  stage : String
  highEdits : List HighEditAttempt
  /-- Workspace files still present after the `finally` cleanup. -/
  filesRemaining : List String
  /-- Whether `job_dir.rmdir()` succeeded (it does exactly when every
  unlink succeeded; all failures are swallowed, lines 1100-1111). -/
  dirRemoved : Bool
deriving DecidableEq

/-- The `finally` block (source lines 1098-1112): unlink each file in the
job directory, swallowing per-file failures, then `rmdir`, swallowing its
failure too.  Returns (files still present, rmdir succeeded). -/
def job_cleanup (created unlinkFailures : List String) : List String × Bool :=
  let remaining := created.filter (fun f => f ∈ unlinkFailures)
  (remaining, remaining.isEmpty)

/-- Assemble a `JobResult`, always running the cleanup (the `finally`). -/
def mkJobResult (stage : String) (edits : List HighEditAttempt) (created unlinkFailures : List String) : JobResult :=
  let c := job_cleanup created unlinkFailures
  ⟨stage, edits, c.1, c.2⟩

/-- The language-mismatch note appended to the transcription (source lines
1062-1064): only when the allowed list is non-empty (Python truthiness),
a language was detected, and it is not in the list. -/
def lang_note_text (text : String) (detected : Option String) (allowed : Option (List String)) : String :=
  match allowed, detected with
  | some al, some d =>
    if al ≠ [] && d ≠ "" && !al.contains d then
      pyStrip (text ++ "\n\n[detected_language=" ++ d ++ " not_in_allowed=" ++ String.intercalate "," al ++ "]")
    else text
  | _, _ => text

/-- The `traceback.format_exception_only` text of a `RuntimeError`. -/
def runtime_error_tb (msg : String) : String := "RuntimeError: " ++ msg ++ "\n"

/-- The diagnostic edit issued by the `except` handler (line 1097), as the
transport sees it. -/
def diag_edit_text (msg : String) : String :=
  pySlice (format_error (runtime_error_tb msg) msg) TELEGRAM_MAX_MESSAGE_LEN

/-- Message of the `RuntimeError` raised when the download returns nothing
(line 973). -/
def DOWNLOAD_FAILED_MSG : String := "Не удалось скачать медиа из reply-сообщения"

/-- Message of the `RuntimeError` raised on a non-zero ffmpeg exit code
(line 729). -/
def ffmpeg_failed_msg (rc : Nat) : String := "ffmpeg failed with code " ++ toString rc

/-- The initial "download 0%" high-priority edit text (line 924). -/
def initial_progress_text : String := build_progress_text "download" (some 0) none none

/-- `process_transcription_job` (source lines 863-1112), as a function of
its environment.  Low-priority progress requests go through the scheduler
model and are not part of this result; `highEdits` records every
`safe_edit_high_priority` attempt in order. -/
def process_transcription_job (env : JobEnv) : JobResult :=
  let edits0 : List HighEditAttempt :=
    if env.isResume then [] else [⟨pySlice initial_progress_text TELEGRAM_MAX_MESSAGE_LEN, none⟩]
  if !env.isResume && !env.firstEditOk then
    mkJobResult "aborted" edits0 [] env.unlinkFailures
  else if !env.downloadOk then
    mkJobResult "error" (edits0 ++ [⟨diag_edit_text DOWNLOAD_FAILED_MSG, none⟩]) [] env.unlinkFailures
  else if env.convertRc ≠ 0 then
    mkJobResult "error" (edits0 ++ [⟨diag_edit_text (ffmpeg_failed_msg env.convertRc), none⟩])
      ["source", "audio.wav"] env.unlinkFailures
  else
    let text := lang_note_text (pyStrip env.transcribeText) env.detectedLang env.langAllowed
    let final_msg := (make_transcription_message text env.modelName).1
    if final_msg.length ≤ TELEGRAM_MAX_MESSAGE_LEN then
      mkJobResult (if env.finalEditOk then "done" else "aborted")
        (edits0 ++ [⟨pySlice final_msg TELEGRAM_MAX_MESSAGE_LEN, none⟩])
        ["source", "audio.wav"] env.unlinkFailures
    else
      let attach_msg := (make_transcription_message "(прикреплена файлом)" env.modelName).1
      mkJobResult (if env.finalEditOk then "done" else "aborted")
        (edits0 ++ [⟨pySlice attach_msg TELEGRAM_MAX_MESSAGE_LEN, some text⟩])
        ["source", "audio.wav", "transcription.txt"] env.unlinkFailures

/-! ## Update scheduler (`LowPriorityEditScheduler`, source lines 481-630)

The scheduler's mutable state and its event-loop are modelled as a state
machine.  All of `request`, `clear_for_message` and the loop body run on the
same asyncio event loop and only yield at `await` points, so the atomic
steps are: a `request` call, a `clear_for_message` call, the dequeue of a
key (`await self._q.get()`, after which the loop sleeps out the pacing
interval), and the post-sleep block (lines 609-630) that fetches the
pending text, re-checks the cancelled set and performs the edit.  The
`dispatch` event carries the `time.monotonic()` value stored into
`_last_edit_at` after a successful edit (line 630); since the loop slept
until `now - _last_edit_at >= interval` (lines 594-605) and time is
monotone, that value satisfies `lastEditAt + interval <= tEdit`, which is
the guard of the `dispatch` step.  `highEdit` models
`safe_edit_high_priority` (lines 763-809), which first runs
`clear_for_message` and is subject to no pacing guard at all. -/

/-- Scheduler queue key: `(chat_id, msg_id)`. -/
abbrev SchedKey := Int × Int

/-- Outcome of one underlying `client.edit_message` call. -/
inductive TransportResult where
  | success
  | notModified
  | floodWait (seconds : Nat)
  | otherError (msg : String)
deriving DecidableEq

/-- Observable behaviour of one `_safe_edit` / `safe_edit_high_priority`
call: seconds slept, number of `edit_message` calls issued, and whether the
call returned normally (`ok = false` models a propagated exception). -/
structure EditRun where
  sleeps : List Nat
  edits : Nat
  ok : Bool
deriving DecidableEq

/-- The shared transport error policy of `_safe_edit` (lines 555-569) and
`safe_edit_high_priority` (lines 793-809): `MessageNotModifiedError` is
success; `FloodWaitError n` sleeps `n + 1` seconds and retries exactly once
with a bare `edit_message` call (whose own failure, of any kind,
propagates); any other error propagates immediately. -/
def safe_edit_run (first retry : TransportResult) : EditRun :=
  match first with
  | .success => ⟨[], 1, true⟩
  | .notModified => ⟨[], 1, true⟩
  | .floodWait n =>
    match retry with
    | .success => ⟨[n + 1], 2, true⟩
    | .notModified => ⟨[n + 1], 2, false⟩
    | .floodWait _ => ⟨[n + 1], 2, false⟩
    | .otherError _ => ⟨[n + 1], 2, false⟩
  | .otherError _ => ⟨[], 1, false⟩

/-- The scheduler's state: `_pending`, `_meta`, `_in_queue`, `_cancelled`,
`_q`, `_last_edit_at` (lines 497-502), plus the key currently held by the
run loop between its dequeue and its dispatch (`current`), and logs of the
successful low- and high-priority edits (newest first). -/
structure SchedState where
  pending : SchedKey → Option String
  meta : SchedKey → Option (Option String × Option String)
  inQueue : List SchedKey
  cancelled : List SchedKey
  q : List SchedKey
  lastEditAt : ℚ
  current : Option SchedKey
  dispatched : List (ℚ × SchedKey × String)
  highDispatched : List (ℚ × SchedKey × String)

/-- Events interleaved on the scheduler's event loop. -/
inductive SchedEvent where
  | request (k : SchedKey) (text : String) (chatTitle msgDate : Option String)
  | clear (k : SchedKey)
  | pop
  | dispatch (tEdit : ℚ) (first retry : TransportResult)
  | highEdit (k : SchedKey) (text : String) (tEdit : ℚ) (first retry : TransportResult)

/-- `clear_for_message` (source lines 541-550): drop the pending text and
meta, remove the key from the in-queue set (but not from `_q` itself, which
supports no removal), and add it to the cancelled set. -/
def clearStep (s : SchedState) (k : SchedKey) : SchedState :=
  { s with
    pending := fun k' => if k' = k then none else s.pending k'
    meta := fun k' => if k' = k then none else s.meta k'
    inQueue := s.inQueue.filter (fun k' => k' ≠ k)
    cancelled := if k ∈ s.cancelled then s.cancelled else k :: s.cancelled }

/-- `request` (source lines 505-529): overwrite the pending text and meta;
push the key into the queue only if it is not already queued. -/
def requestStep (s : SchedState) (k : SchedKey) (t : String) (title date : Option String) : SchedState :=
  let s1 := { s with
    pending := fun k' => if k' = k then some t else s.pending k'
    meta := fun k' => if k' = k then some (title, date) else s.meta k' }
  if k ∈ s.inQueue then s1
  else { s1 with inQueue := k :: s1.inQueue, q := s1.q ++ [k] }

/-- The run loop's dequeue (source lines 588-591): take the queue head and
discard it from the in-queue set; only possible when the loop is not
already holding a key. -/
def popStep (s : SchedState) : SchedState :=
  match s.current with
  | some _ => s
  | none =>
    match s.q with
    | [] => s
    | k :: rest =>
      { s with q := rest, inQueue := s.inQueue.filter (fun k' => k' ≠ k), current := some k }

/-- The run loop's post-sleep block (source lines 607-630): guarded by the
pacing interval; fetch (and remove) the pending text only now; skip if it
is missing or empty; skip (consuming the flag) if the key was cancelled;
otherwise attempt the edit, and on success record it and advance
`_last_edit_at`; on failure just drop the update and continue. -/
def dispatchStep (interval : ℚ) (s : SchedState) (tEdit : ℚ) (first retry : TransportResult) : SchedState :=
  match s.current with
  | none => s
  | some k =>
    if tEdit < s.lastEditAt + interval then s
    else
      let text? := s.pending k
      let s1 := { s with pending := fun k' => if k' = k then none else s.pending k', current := none }
      match text? with
      | none => s1
      | some t =>
        if t = "" then s1
        else if k ∈ s.cancelled then
          { s1 with cancelled := s1.cancelled.filter (fun k' => k' ≠ k)
                    meta := fun k' => if k' = k then none else s1.meta k' }
        else
          let s2 := { s1 with meta := fun k' => if k' = k then none else s1.meta k' }
          if (safe_edit_run first retry).ok then
            { s2 with dispatched := (tEdit, k, t) :: s2.dispatched, lastEditAt := tEdit }
          else s2

/-- `safe_edit_high_priority` (source lines 763-809): clear the key, then
edit immediately (no pacing guard); the text is trimmed to the message
length limit; a successful call is recorded. -/
def highEditStep (s : SchedState) (k : SchedKey) (t : String) (tEdit : ℚ) (first retry : TransportResult) : SchedState :=
  let s1 := clearStep s k
  if (safe_edit_run first retry).ok then
    { s1 with highDispatched := (tEdit, k, pySlice t TELEGRAM_MAX_MESSAGE_LEN) :: s1.highDispatched }
  else s1

/-- One scheduler step. -/
def step (interval : ℚ) (s : SchedState) : SchedEvent → SchedState
  | .request k t title date => requestStep s k t title date
  | .clear k => clearStep s k
  | .pop => popStep s
  | .dispatch tEdit first retry => dispatchStep interval s tEdit first retry
  | .highEdit k t tEdit first retry => highEditStep s k t tEdit first retry

/-- The scheduler's state right after `__init__` (lines 488-503). -/
def initState : SchedState :=
  { pending := fun _ => none
    meta := fun _ => none
    inQueue := []
    cancelled := []
    q := []
    lastEditAt := 0
    current := none
    dispatched := []
    highDispatched := [] }

/-- Run a sequence of scheduler events. -/
def runTrace (interval : ℚ) (s : SchedState) (es : List SchedEvent) : SchedState :=
  es.foldl (step interval) s

/-- Apply a burst of `request` calls for one key. -/
def applyRequests (interval : ℚ) (k : SchedKey) (ts : List String) (s : SchedState) : SchedState :=
  ts.foldl (fun s t => step interval s (.request k t none none)) s

/-- Does this event run `clear_for_message` for key `k`?  (Directly, or as
the first action of a high-priority edit.) -/
def touchesClear (k : SchedKey) : SchedEvent → Bool
  | .clear k' => k' = k
  | .highEdit k' _ _ _ _ => k' = k
  | _ => false

/-- Timestamps (newest first) separated pairwise by at least `interval`. -/
def paced (interval : ℚ) (l : List ℚ) : Prop :=
  l.Chain' (fun a b => b + interval ≤ a)

/-! ### Refined scheduler: the `await` points inside `_safe_edit` made explicit

`_safe_edit` (source lines 554-568) is not atomic: on `FloodWaitError` it
sleeps `int(e.seconds) + 1` (line 565) and only then retries the bare
`edit_message` (line 566).  During that sleep the event loop runs other
tasks, so `clear_for_message` and a high-priority edit may land in between;
the retry then re-sends the text captured before the backoff, and neither
`_pending` nor `_cancelled` is consulted again (the re-checks of lines
609-620 ran before `_safe_edit` was entered).  This refinement splits the
loop body at its awaits: `phase` records where the loop is suspended —
`sleeping k` between the dequeue (line 588) and the post-pacing-sleep
block (line 609), `backoff k text` during the FloodWait sleep with the
already-fetched text in the local variable `text`. -/

/-- Where the scheduler run loop is suspended. -/
inductive SchedPhase where
  | idle
  | sleeping (k : SchedKey)
  | backoff (k : SchedKey) (text : String)
deriving DecidableEq

/-- The scheduler's state with the loop's suspension point (`phase`) in
place of the coarse model's `current` register. -/
structure SchedStateR where
  pending : SchedKey → Option String
  meta : SchedKey → Option (Option String × Option String)
  inQueue : List SchedKey
  cancelled : List SchedKey
  q : List SchedKey
  lastEditAt : ℚ
  phase : SchedPhase
  dispatched : List (ℚ × SchedKey × String)
  highDispatched : List (ℚ × SchedKey × String)

/-- Events of the refined scheduler: the loop body is split into the
dequeue (`pop`), the post-sleep block up to and including the first
`edit_message` call (`dispatchTry`), and the post-backoff retry
(`dispatchRetry`). -/
inductive SchedEventR where
  | request (k : SchedKey) (text : String) (chatTitle msgDate : Option String)
  | clear (k : SchedKey)
  | pop
  | dispatchTry (tEdit : ℚ) (first : TransportResult)
  | dispatchRetry (tEdit : ℚ) (retryOk : Bool)
  | highEdit (k : SchedKey) (text : String) (tEdit : ℚ) (first retry : TransportResult)

/-- `clear_for_message` (source lines 541-550), on the refined state: drop
the pending text and meta, remove the key from the in-queue set, add it to
the cancelled set.  The loop's suspension point is untouched — in
particular a loop parked in the FloodWait backoff stays there, still
holding its fetched text. -/
def clearStepR (s : SchedStateR) (k : SchedKey) : SchedStateR :=
  { s with
    pending := fun k' => if k' = k then none else s.pending k'
    meta := fun k' => if k' = k then none else s.meta k'
    inQueue := s.inQueue.filter (fun k' => k' ≠ k)
    cancelled := if k ∈ s.cancelled then s.cancelled else k :: s.cancelled }

/-- `request` (source lines 505-529), on the refined state. -/
def requestStepR (s : SchedStateR) (k : SchedKey) (t : String) (title date : Option String) : SchedStateR :=
  let s1 := { s with
    pending := fun k' => if k' = k then some t else s.pending k'
    meta := fun k' => if k' = k then some (title, date) else s.meta k' }
  if k ∈ s.inQueue then s1
  else { s1 with inQueue := k :: s1.inQueue, q := s1.q ++ [k] }

/-- The run loop's dequeue (source lines 588-591): take the queue head,
discard it from the in-queue set, and park in the pacing sleep. -/
def popStepR (s : SchedStateR) : SchedStateR :=
  match s.phase with
  | .idle =>
    match s.q with
    | [] => s
    | k :: rest =>
      { s with q := rest, inQueue := s.inQueue.filter (fun k' => k' ≠ k), phase := .sleeping k }
  | _ => s

/-- The post-sleep block through the FIRST `edit_message` call (source
lines 607-626 and 558-565): guarded by the pacing interval; fetch (and
remove) the pending text; skip if missing or empty; skip (consuming the
flag) if cancelled; otherwise attempt the edit once.  Success and
`MessageNotModifiedError` return normally, so the loop records the edit
time (line 630); `FloodWaitError` parks the loop in the backoff sleep with
the fetched text still in hand (line 565); any other error is caught at
line 628 and the update dropped. -/
def dispatchTryStep (interval : ℚ) (s : SchedStateR) (tEdit : ℚ) (first : TransportResult) : SchedStateR :=
  match s.phase with
  | .sleeping k =>
    if tEdit < s.lastEditAt + interval then s
    else
      let text? := s.pending k
      let s1 := { s with pending := fun k' => if k' = k then none else s.pending k', phase := .idle }
      match text? with
      | none => s1
      | some t =>
        if t = "" then s1
        else if k ∈ s.cancelled then
          { s1 with cancelled := s1.cancelled.filter (fun k' => k' ≠ k)
                    meta := fun k' => if k' = k then none else s1.meta k' }
        else
          let s2 := { s1 with meta := fun k' => if k' = k then none else s1.meta k' }
          match first with
          | .success => { s2 with dispatched := (tEdit, k, t) :: s2.dispatched, lastEditAt := tEdit }
          | .notModified => { s2 with dispatched := (tEdit, k, t) :: s2.dispatched, lastEditAt := tEdit }
          | .floodWait _ => { s2 with phase := .backoff k t }
          | .otherError _ => s2
  | _ => s

/-- The retry after the FloodWait backoff sleep (source line 566): a bare
`edit_message` re-sending the text fetched BEFORE the backoff; neither
`_pending` nor `_cancelled` is consulted again.  On success the loop's
`else` branch records the edit and stamps `_last_edit_at` (line 630); any
exception propagates out of `_safe_edit`, is caught at line 628, and the
update is dropped. -/
def dispatchRetryStep (s : SchedStateR) (tEdit : ℚ) (retryOk : Bool) : SchedStateR :=
  match s.phase with
  | .backoff k t =>
    if retryOk then
      { s with dispatched := (tEdit, k, t) :: s.dispatched, lastEditAt := tEdit, phase := .idle }
    else { s with phase := .idle }
  | _ => s

/-- `safe_edit_high_priority` (source lines 763-809), on the refined state:
clear the key, then edit immediately with the trimmed text. -/
def highEditStepR (s : SchedStateR) (k : SchedKey) (t : String) (tEdit : ℚ) (first retry : TransportResult) : SchedStateR :=
  let s1 := clearStepR s k
  if (safe_edit_run first retry).ok then
    { s1 with highDispatched := (tEdit, k, pySlice t TELEGRAM_MAX_MESSAGE_LEN) :: s1.highDispatched }
  else s1

/-- One refined scheduler step. -/
def stepR (interval : ℚ) (s : SchedStateR) : SchedEventR → SchedStateR
  | .request k t title date => requestStepR s k t title date
  | .clear k => clearStepR s k
  | .pop => popStepR s
  | .dispatchTry tEdit first => dispatchTryStep interval s tEdit first
  | .dispatchRetry tEdit retryOk => dispatchRetryStep s tEdit retryOk
  | .highEdit k t tEdit first retry => highEditStepR s k t tEdit first retry

/-- The refined scheduler's state right after `__init__` (lines 488-503). -/
def initStateR : SchedStateR :=
  { pending := fun _ => none
    meta := fun _ => none
    inQueue := []
    cancelled := []
    q := []
    lastEditAt := 0
    phase := .idle
    dispatched := []
    highDispatched := [] }

/-- Run a sequence of refined scheduler events. -/
def runTraceR (interval : ℚ) (s : SchedStateR) (es : List SchedEventR) : SchedStateR :=
  es.foldl (stepR interval) s

/-- The interleaving exercising the FloodWait backoff race: one low-priority
request for key (1, 2), its dequeue, a first edit attempt at t = 200 that
hits a FloodWait, then — while the loop sleeps out the backoff — the job's
final high-priority edit at t = 210 (which runs `clear_for_message` first),
and finally the loop's bare retry at t = 231. -/
def c2BugTrace : List SchedEventR :=
  [ .request (1, 2) "stale" none none,
    .pop,
    .dispatchTry 200 (.floodWait 30),
    .highEdit (1, 2) "FINAL" 210 .success .success,
    .dispatchRetry 231 true ]

/-! ## Resume scanner (`startup_scan_and_resume`, source lines 1231-1390) -/

/-- `_text_starts_with_transcription_command` (source lines 821-829). -/
def text_starts_with_transcription_command (text : String) : Bool :=
  if text = "" then false
  else
    let t := pyStrip text
    pyStartsWith t "/transcription" || pyStartsWith t "/tr" || pyStartsWith t "/ts" ||
      pyStartsWith t "/transcription@" || pyStartsWith t "/tr@" || pyStartsWith t "/ts@"

/-- `_is_unfinished_transcription_message` (source lines 832-842). -/
def is_unfinished_transcription_message (text : String) : Bool :=
  if text = "" || !pyContains text "🤖 Транскрипция:" then false
  else if pyContains text "Скачивание медиа" || pyContains text "Конвертация медиа"
      || pyContains text "Извлечение текста" then true
  else if pyContains text "Дата завершения: —" then true
  else if pyContains text "%" && pyContains text "🤖 Транскрипция:" then true
  else false

/-- `_is_completed_transcription_worse_than_default` (source lines 845-860),
with `DEFAULT_MODEL_NAME` as a parameter. -/
def is_completed_transcription_worse_than_default (defaultModel text : String) : Bool :=
  if text = "" || !pyContains text "🤖 Транскрипция" then false
  else if pyContains text "Скачивание медиа" || pyContains text "Конвертация медиа"
      || pyContains text "Извлечение текста" then false
  else if pyContains text "Дата завершения: —" then false
  else
    match parse_transcription_message_model text with
    | none => false
    | some msgModel =>
      let defaultRank := model_quality_rank defaultModel
      let msgRank := model_quality_rank msgModel
      if defaultRank < 0 || msgRank < 0 then false
      else decide (msgRank < defaultRank)

/-- Classification of a scanned status message. -/
inductive ResumeClass where
  | resume
  | upgrade
deriving DecidableEq

/-- `has_transcription` (source line 1319). -/
def scan_has_transcription (text : String) : Bool :=
  pyContains text "🤖 Транскрипция:" || pyContains text "🤖 Транскрипция (model"

/-- The per-message classification of the scan loop (source lines 1320-1333):
only command-prefixed messages carrying a transcription header are looked
at; unfinished ones are resumed, completed inferior-model ones upgraded. -/
def classify_scan_text (defaultModel text : String) : Option ResumeClass :=
  if text_starts_with_transcription_command text && scan_has_transcription text then
    if is_unfinished_transcription_message text then some .resume
    else if is_completed_transcription_worse_than_default defaultModel text then some .upgrade
    else none
  else none

/-- One self-authored message as the scan sees it: `message.date` (as a UTC
timestamp, `none` when absent), `message.out`, its text, and
`reply_to_msg_id`. -/
structure ScanMessage where
  date : Option Int
  out : Bool
  text : String
  replyToMsgId : Option Int
deriving DecidableEq

/-- The scan over one dialog's messages, newest first (source lines
1307-1333): the loop `break`s at the first message at or past the lookback
cutoff (or without a date), then filters on `out`, non-blank text and the
presence of a reply id before classifying. -/
def scan_messages (cutoff : Int) (defaultModel : String) : List ScanMessage → List (ScanMessage × ResumeClass)
  | [] => []
  | m :: rest =>
    match m.date with
    | none => []
    | some d =>
      if d < cutoff then []
      else
        let tail := scan_messages cutoff defaultModel rest
        if !m.out then tail
        else if pyStrip m.text = "" then tail
        else
          match m.replyToMsgId with
          | none => tail
          | some _ =>
            match classify_scan_text defaultModel m.text with
            | some c => (m, c) :: tail
            | none => tail

/-! ## Helper lemmas -/

theorem pySlice_data (s : String) (n : Nat) : (pySlice s n).data = s.data.take n := rfl

theorem pySlice_length_le (s : String) (n : Nat) : (pySlice s n).length ≤ n :=
  List.length_take_le n s.data

theorem pySlice_of_le {s : String} {n : Nat} (h : s.length ≤ n) : pySlice s n = s := by
  unfold pySlice
  rw [List.take_of_length_le h]

theorem pyStartsWith_pySlice {p s : String} {n : Nat} (hn : p.length ≤ n)
    (h : p.data <+: s.data) : pyStartsWith (pySlice s n) p = true := by
  rcases h with ⟨r, hr⟩
  have hd : (pySlice s n).data = p.data ++ r.take (n - p.data.length) := by
    rw [pySlice_data, ← hr, List.take_append_eq_append_take, List.take_of_length_le hn]
  simp only [pyStartsWith, hd, List.isPrefixOf_iff_prefix]
  exact List.prefix_append _ _

/-! ## C9: output size of the progress estimator -/

/-- A 4097-character note, exceeding the platform message length limit. -/
def c9_big_note : String := ⟨List.replicate 4097 'a'⟩

/-- C9, counterexample: `build_progress_text` does NOT always clip its output
to the platform limit of 4096: the note-carrying branch (source lines
748-755) returns without the `[:TELEGRAM_MAX_MESSAGE_LEN]` clip, so an
oversized note makes the result exceed the limit. -/
theorem c9_counterexample :
    TELEGRAM_MAX_MESSAGE_LEN <
      (build_progress_text "download" none none (some c9_big_note)).length := by
  have hlen : c9_big_note.length = 4097 := List.length_replicate 4097 'a'
  have hne : c9_big_note ≠ "" := by
    intro h
    rw [h] at hlen
    simp at hlen
  simp only [build_progress_text, Option.getD]
  rw [if_pos hne]
  simp only [if_true, String.length_append, hlen]
  decide

/-- C9, amended: whenever no note is present, `build_progress_text` clips its
output to the platform length limit (the note branch returns unclipped, as
the counterexample shows; the program's own note values are short). -/
theorem c9_no_note_clipped (stage : String) (pct : Option Int) (done_ts : Option String) :
    (build_progress_text stage pct done_ts none).length ≤ TELEGRAM_MAX_MESSAGE_LEN := by
  simp only [build_progress_text, Option.getD_none]
  rw [if_neg (by simp)]
  exact pySlice_length_le _ _

/-! ## C7: ETA projection -/

/-- C7, counterexample: the download and transcribe stages do NOT share the
integer-percent projection rule.  With 1 byte of 1000 downloaded after 1s,
the displayed percent is 0 yet `dl_progress` still computes an ETA (999s);
and with 15 of 1000 bytes (displayed percent 1) the computed ETA is
985/15 s = 197/3 s, not the (100-1)/1*1 = 99 s the percent rule would give.
The transcribe stage, by contrast, computes no ETA at percent 0. -/
theorem c7_counterexample :
    dl_eta 1 1000 1 = some 999 ∧ dl_pct 1 1000 = 0
    ∧ dl_eta 15 1000 1 = some (197 / 3) ∧ dl_pct 15 1000 = 1
    ∧ (100 - (1 : ℚ)) / 1 * 1 = 99 ∧ ((197 : ℚ) / 3) ≠ 99
    ∧ transcribe_eta 0 1 = none := by
  refine ⟨?_, ?_, ?_, ?_, by norm_num, by norm_num, ?_⟩
  · rw [dl_eta]; norm_num
  · rw [dl_pct, ratio_pct]; norm_num [min_def, max_def]
  · rw [dl_eta]; norm_num
  · rw [dl_pct, ratio_pct]; norm_num [min_def, max_def]
  · rw [transcribe_eta]; norm_num

/-- C7, amended: the transcribe stage follows the projection rule exactly:
for integer percent `p > 0` and elapsed `e ≥ 0.5` the predicted remaining
time is `(100 - p) / p * e` (so `p = 50, e = 10` gives 10s and
`p = 25, e = 5` gives 15s), and no ETA is computed when `p ≤ 0` or
`e < 0.5`.  The download stage predicts from byte counts instead:
`(total - current) / current * e`, gated on `current > 0` and `e ≥ 0.5` —
equal to the percent rule at the exact (unrounded) percentage
`current / total * 100`, but not at the displayed integer percent. -/
theorem c7_eta_rules :
    (∀ (p : Int) (e : ℚ), 0 < p → 1 / 2 ≤ e →
        transcribe_eta p e = some ((100 - (p : ℚ)) / (p : ℚ) * e))
    ∧ (∀ (p : Int) (e : ℚ), p ≤ 0 → transcribe_eta p e = none)
    ∧ (∀ (p : Int) (e : ℚ), e < 1 / 2 → transcribe_eta p e = none)
    ∧ transcribe_eta 50 10 = some 10
    ∧ transcribe_eta 25 5 = some 15
    ∧ (∀ c t e : ℚ, 0 < c → 1 / 2 ≤ e → dl_eta c t e = some ((t - c) / c * e))
    ∧ (∀ c t e : ℚ, c ≤ 0 → dl_eta c t e = none)
    ∧ (∀ c t e : ℚ, e < 1 / 2 → dl_eta c t e = none)
    ∧ (∀ c t e : ℚ, 0 < c → 0 < t →
        (t - c) / c * e = (100 - c / t * 100) / (c / t * 100) * e) := by
  refine ⟨?_, ?_, ?_, by rw [transcribe_eta]; norm_num, by rw [transcribe_eta]; norm_num,
    ?_, ?_, ?_, ?_⟩
  · intro p e hp he
    rw [transcribe_eta, if_pos hp, if_pos he]
  · intro p e hp
    rw [transcribe_eta, if_neg (by omega)]
  · intro p e he
    by_cases hp : 0 < p
    · rw [transcribe_eta, if_pos hp, if_neg (not_le.mpr he)]
    · rw [transcribe_eta, if_neg hp]
  · intro c t e hc he
    have hepos : 0 < e := lt_of_lt_of_le (by norm_num) he
    have hspeed : 0 < c / e := div_pos hc hepos
    rw [dl_eta, if_pos hc, if_pos he]
    simp only [if_pos hspeed, Option.some.injEq]
    field_simp
  · intro c t e hc
    rw [dl_eta, if_neg (not_lt.mpr hc)]
  · intro c t e he
    by_cases hc : 0 < c
    · rw [dl_eta, if_pos hc, if_neg (not_le.mpr he)]
    · rw [dl_eta, if_neg hc]
  · intro c t e hc ht
    have h1 : c / t * 100 ≠ 0 := by positivity
    field_simp
    ring

/-! ## C10: percent clamping -/

/-- C10: every ratio-derived in-progress percentage — downloaded bytes over
total size, transcoder out_time over probed duration, segment end over
audio duration, all computed by `ratio_pct` — is clamped into [0, 99]; and
the ffmpeg progress reader emits 100 only for the explicit end-of-progress
marker line (`progress=...end`), never from a ratio. -/
theorem c10_percent_clamped :
    (∀ num den : ℚ, 0 ≤ ratio_pct num den ∧ ratio_pct num den ≤ 99)
    ∧ (∀ (dur : Option ℚ) (last_pct : Int) (line : String),
        ffmpeg_progress_line dur last_pct line = some 100 →
        pyStartsWith line "progress=" = true ∧ pyEndsWith line "end" = true) := by
  have hbounds : ∀ num den : ℚ, 0 ≤ ratio_pct num den ∧ ratio_pct num den ≤ 99 := by
    intro num den
    constructor
    · refine Int.le_floor.mpr ?_
      push_cast
      exact le_min (by norm_num) (le_max_left _ _)
    · have h : ratio_pct num den ≤ ⌊(99 : ℚ)⌋ := Int.floor_le_floor (min_le_left _ _)
      simpa using h
  refine ⟨hbounds, ?_⟩
  intro dur last_pct line h
  unfold ffmpeg_progress_line at h
  split at h
  · exfalso
    split at h
    all_goals first
      | exact Option.noConfusion h
      | (rename_i ms d hp hd
         dsimp only at h
         split at h
         · have h99 := (hbounds ((ms : ℚ) / 1000000) d).2
           have h100 : ratio_pct ((ms : ℚ) / 1000000) d = 100 := (Option.some.injEq _ _).mp h
           omega
         · exact Option.noConfusion h)
  · split at h
    · rename_i h2
      exact ⟨((Bool.and_eq_true _ _).mp h2).1, ((Bool.and_eq_true _ _).mp h2).2⟩
    · exact Option.noConfusion h

/-- C10, witness: the end-of-progress marker line itself. -/
theorem c10_percent_clamped_witness :
    ffmpeg_progress_line none 0 "progress=end" = some 100
    ∧ (pyStartsWith "progress=end" "progress=" = true
        ∧ pyEndsWith "progress=end" "end" = true) :=
  ⟨by decide, c10_percent_clamped.2 none 0 "progress=end" (by decide)⟩

/-! ## C5: transport error policy -/

/-- C5: a rate-limited edit (`FloodWaitError n`) sleeps `n + 1` seconds and is
retried exactly once; `MessageNotModifiedError` is success without an
applied edit; any other error propagates — the scheduler loop then drops
the update and keeps running (no dispatch recorded, `_last_edit_at`
untouched), while a failed high-priority edit is not recorded and the
exception reaches the caller. -/
theorem c5_transport_error_policy (interval : ℚ) :
    (∀ (n : Nat) (retry : TransportResult),
        (safe_edit_run (.floodWait n) retry).sleeps = [n + 1]
        ∧ (safe_edit_run (.floodWait n) retry).edits = 2)
    ∧ (∀ retry : TransportResult, safe_edit_run .notModified retry = ⟨[], 1, true⟩)
    ∧ (∀ (msg : String) (retry : TransportResult),
        (safe_edit_run (.otherError msg) retry).ok = false)
    ∧ (∀ (s : SchedState) (tEdit : ℚ) (first retry : TransportResult),
        (safe_edit_run first retry).ok = false →
        (step interval s (.dispatch tEdit first retry)).dispatched = s.dispatched
        ∧ (step interval s (.dispatch tEdit first retry)).lastEditAt = s.lastEditAt)
    ∧ (∀ (s : SchedState) (k : SchedKey) (t : String) (tEdit : ℚ) (msg : String)
        (retry : TransportResult),
        (step interval s (.highEdit k t tEdit (.otherError msg) retry)).highDispatched
          = s.highDispatched) := by
  refine ⟨fun n retry => by cases retry <;> exact ⟨rfl, rfl⟩, fun retry => rfl,
    fun msg retry => rfl, ?_, ?_⟩
  · intro s tEdit first retry hfail
    simp only [step, dispatchStep]
    split
    · exact ⟨rfl, rfl⟩
    · split
      · exact ⟨rfl, rfl⟩
      · split
        · exact ⟨rfl, rfl⟩
        · split
          · exact ⟨rfl, rfl⟩
          · split
            · exact ⟨rfl, rfl⟩
            · rw [if_neg (by rw [hfail]; exact Bool.false_ne_true)]
              exact ⟨rfl, rfl⟩
  · intro s k t tEdit msg retry
    simp only [step, highEditStep, safe_edit_run]
    rw [if_neg Bool.false_ne_true]
    rfl

/-- C5, witness: a concrete failing dispatch and failing high-priority edit. -/
theorem c5_transport_error_policy_witness :
    (safe_edit_run (.otherError "boom") .success).ok = false
    ∧ ((step 120 initState (.dispatch 5 (.otherError "boom") .success)).dispatched
          = initState.dispatched
        ∧ (step 120 initState (.dispatch 5 (.otherError "boom") .success)).lastEditAt
          = initState.lastEditAt) :=
  ⟨rfl, (c5_transport_error_policy 120).2.2.2.1 initState 5 (.otherError "boom") .success rfl⟩

/-! ## C4: convert-stage failure -/

/-- `format_error` always has the shape head ++ traceback ++ tail. -/
theorem format_error_eq (a b : String) :
    format_error a b
      = ERR_HEAD ++ (pySlice (if pyStrip a = "" then b else pyStrip a) 2000 ++ ERR_TAIL) := by
  unfold format_error
  rw [String.append_assoc]

/-- The diagnostic edit text always begins with the fixed error banner. -/
theorem diag_edit_text_starts (msg : String) :
    pyStartsWith (diag_edit_text msg) ERR_HEAD = true := by
  unfold diag_edit_text
  refine pyStartsWith_pySlice (by decide) ?_
  rw [format_error_eq]
  exact ⟨_, rfl⟩

/-- C4: when ffmpeg exits non-zero — in any job that reaches the convert
stage, whether fresh (the initial edit succeeded) or resumed (the initial
edit is skipped) — the job ends in the error outcome, attempts exactly one
diagnostic high-priority edit (whose traceback portion is clipped to 2000
code points), and the `finally` block removes the workspace files (all of
them when no unlink fails), swallowing any cleanup failure without changing
the outcome. -/
theorem c4_convert_failure (env : JobEnv)
    (h1 : env.isResume = true ∨ env.firstEditOk = true)
    (h3 : env.downloadOk = true) (h4 : env.convertRc ≠ 0) :
    (process_transcription_job env).stage = "error"
    ∧ (process_transcription_job env).highEdits =
        (if env.isResume then []
          else [⟨pySlice initial_progress_text TELEGRAM_MAX_MESSAGE_LEN, none⟩]) ++
          [⟨diag_edit_text (ffmpeg_failed_msg env.convertRc), none⟩]
    ∧ ((process_transcription_job env).highEdits.filter
          (fun a => pyStartsWith a.text ERR_HEAD)).length = 1
    ∧ (∃ core : String,
        format_error (runtime_error_tb (ffmpeg_failed_msg env.convertRc))
            (ffmpeg_failed_msg env.convertRc)
          = ERR_HEAD ++ (core ++ ERR_TAIL) ∧ core.length ≤ 2000)
    ∧ (env.unlinkFailures = [] →
        (process_transcription_job env).filesRemaining = []
        ∧ (process_transcription_job env).dirRemoved = true)
    ∧ (∀ fails : List String,
        (process_transcription_job { env with unlinkFailures := fails }).stage = "error") := by
  have hrun : ∀ fails, process_transcription_job { env with unlinkFailures := fails } =
      mkJobResult "error"
        ((if env.isResume then []
          else [⟨pySlice initial_progress_text TELEGRAM_MAX_MESSAGE_LEN, none⟩]) ++
          [⟨diag_edit_text (ffmpeg_failed_msg env.convertRc), none⟩])
        ["source", "audio.wav"] fails := by
    intro fails
    rcases h1 with hr | hf
    · simp [process_transcription_job, hr, h3, h4]
    · simp [process_transcription_job, hf, h3, h4]
  have henv : env = { env with unlinkFailures := env.unlinkFailures } := rfl
  have hself : process_transcription_job env =
      mkJobResult "error"
        ((if env.isResume then []
          else [⟨pySlice initial_progress_text TELEGRAM_MAX_MESSAGE_LEN, none⟩]) ++
          [⟨diag_edit_text (ffmpeg_failed_msg env.convertRc), none⟩])
        ["source", "audio.wav"] env.unlinkFailures := by
    rw [henv]
    exact hrun env.unlinkFailures
  refine ⟨by rw [hself]; rfl, by rw [hself]; rfl, ?_, ?_, ?_, ?_⟩
  · rw [hself]
    cases hres : env.isResume with
    | true =>
      simp only [mkJobResult, hres, if_true, List.nil_append, List.filter]
      rw [diag_edit_text_starts]
      rfl
    | false =>
      simp only [mkJobResult, hres, if_false, List.singleton_append, List.filter]
      rw [diag_edit_text_starts]
      rw [show pyStartsWith (pySlice initial_progress_text TELEGRAM_MAX_MESSAGE_LEN) ERR_HEAD
          = false by decide]
      rfl
  · exact ⟨_, format_error_eq _ _, pySlice_length_le _ _⟩
  · intro hnil
    rw [hself]
    simp [mkJobResult, job_cleanup, hnil]
  · intro fails
    rw [hrun fails]
    rfl

/-- Concrete environment for the C4 witness: ffmpeg exits with code 1. -/
def c4WitEnv : JobEnv :=
  { isResume := false, firstEditOk := true, downloadOk := true, convertRc := 1,
    transcribeText := "", detectedLang := none, langAllowed := none,
    modelName := "large", finalEditOk := true, unlinkFailures := [] }

/-- Concrete environment for the resumed half of the C4 witness: the job is
a resume, so the initial edit never happens and its flag is irrelevant. -/
def c4WitEnvResume : JobEnv :=
  { c4WitEnv with isResume := true, firstEditOk := false }

/-- C4, witness: a convert failure with exit code 1 ends in `error`, both
for a fresh job and for a resumed one. -/
theorem c4_convert_failure_witness :
    (c4WitEnv.convertRc ≠ 0 ∧ (process_transcription_job c4WitEnv).stage = "error")
    ∧ (c4WitEnvResume.isResume = true
        ∧ (process_transcription_job c4WitEnvResume).stage = "error") :=
  ⟨⟨by decide, (c4_convert_failure c4WitEnv (Or.inr rfl) rfl (by decide)).1⟩,
    ⟨rfl, (c4_convert_failure c4WitEnvResume (Or.inl rfl) rfl (by decide)).1⟩⟩

/-! ## C6: final message length policy -/

/-- The final transcription text of a successful job: the trimmed ASR output
with the language-mismatch note appended when applicable (lines 1057-1064). -/
def job_final_text (env : JobEnv) : String :=
  lang_note_text (pyStrip env.transcribeText) env.detectedLang env.langAllowed

/-- The composed final message of a successful job (line 1073). -/
def job_final_msg (env : JobEnv) : String :=
  (make_transcription_message (job_final_text env) env.modelName).1

/-- C6: on a successful job, a final message within the platform limit is
dispatched inline, exactly as composed (the high-priority trim is the
identity on it); a final message over the limit results in exactly one
attachment-based dispatch whose attachment holds the full transcription
text, with a short placeholder message and no inline dispatch of the final
result. -/
theorem c6_final_length_policy (env : JobEnv)
    (h1 : env.isResume = false) (h2 : env.firstEditOk = true)
    (h3 : env.downloadOk = true) (h4 : env.convertRc = 0) :
    ((job_final_msg env).length ≤ TELEGRAM_MAX_MESSAGE_LEN →
      (process_transcription_job env).highEdits =
        [⟨pySlice initial_progress_text TELEGRAM_MAX_MESSAGE_LEN, none⟩,
          ⟨job_final_msg env, none⟩])
    ∧ (TELEGRAM_MAX_MESSAGE_LEN < (job_final_msg env).length →
      (process_transcription_job env).highEdits =
        [⟨pySlice initial_progress_text TELEGRAM_MAX_MESSAGE_LEN, none⟩,
          ⟨pySlice (make_transcription_message "(прикреплена файлом)" env.modelName).1
              TELEGRAM_MAX_MESSAGE_LEN,
            some (job_final_text env)⟩]) := by
  constructor
  · intro h5
    simp [process_transcription_job, h1, h2, h3, h4, mkJobResult, job_cleanup]
    rw [show lang_note_text (pyStrip env.transcribeText) env.detectedLang env.langAllowed
        = job_final_text env from rfl]
    rw [show (make_transcription_message (job_final_text env) env.modelName).1
        = job_final_msg env from rfl]
    rw [if_pos h5]
    simp [pySlice_of_le h5]
  · intro h5
    simp [process_transcription_job, h1, h2, h3, h4, mkJobResult, job_cleanup]
    rw [show lang_note_text (pyStrip env.transcribeText) env.detectedLang env.langAllowed
        = job_final_text env from rfl]
    rw [show (make_transcription_message (job_final_text env) env.modelName).1
        = job_final_msg env from rfl]
    rw [if_neg (not_le.mpr h5)]

/-! ## C8: resume classification -/

/-- Every classified message in a scan has a date at or after the cutoff
(the scan `break`s at the first older or dateless message), and its text
classifies it. -/
theorem scan_messages_mem (cutoff : Int) (dm : String) :
    ∀ (msgs : List ScanMessage) (m : ScanMessage) (c : ResumeClass),
      (m, c) ∈ scan_messages cutoff dm msgs →
      (∃ d, m.date = some d ∧ cutoff ≤ d) ∧ classify_scan_text dm m.text = some c := by
  intro msgs
  induction msgs with
  | nil => intro m c h; exact absurd h (List.not_mem_nil _)
  | cons hd tl ih =>
    intro m c h
    unfold scan_messages at h
    split at h
    · exact absurd h (List.not_mem_nil _)
    · rename_i d hdate
      split at h
      · exact absurd h (List.not_mem_nil _)
      · rename_i hcut
        split at h
        · exact ih m c h
        · split at h
          · exact ih m c h
          · split at h
            · exact ih m c h
            · split at h
              · rename_i c' hcls
                rcases List.mem_cons.mp h with heq | hmem
                · have hm : m = hd ∧ c = c' :=
                    ⟨congrArg Prod.fst heq, congrArg Prod.snd heq⟩
                  refine ⟨⟨d, ?_, not_lt.mp hcut⟩, ?_⟩
                  · rw [hm.1]; exact hdate
                  · rw [hm.1, hm.2]; exact hcls
                · exact ih m c hmem
              · exact ih m c h

/-- A text that classifies as unfinished is always classified `resume`,
never `upgrade` (the `elif` at source line 1327 is not reached). -/
theorem classify_unfinished (dm text : String)
    (h : is_unfinished_transcription_message text = true) :
    ∀ c, classify_scan_text dm text = some c → c = ResumeClass.resume := by
  intro c hc
  unfold classify_scan_text at hc
  repeat split at hc
  all_goals first
    | exact Option.noConfusion hc
    | exact ((Option.some.injEq _ _).mp hc).symm

/-- A status message whose text carries the completed-form header
`🤖 Транскрипция (model tiny):` together with an in-progress stage marker:
it passes every scan filter and sits inside the lookback window. -/
def c8_bad_text : String := "/tr 🤖 Транскрипция (model tiny): Скачивание медиа"

/-- The C8 counterexample message, dated well inside the window. -/
def c8_bad_msg : ScanMessage :=
  { date := some 100, out := true, text := c8_bad_text, replyToMsgId := some 7 }

/-- C8, counterexample: a self-authored status message examined by the scan
(command-prefixed, transcription-headed, with a reply id, inside the
lookback window) whose text contains the in-progress marker
`Скачивание медиа` is NOT classified at all: `_is_unfinished` demands the
plain header `🤖 Транскрипция:`, which the completed-form header
`🤖 Транскрипция (model tiny):` does not contain, and the stage marker in
turn blocks `_is_completed_transcription_worse_than_default`.  This refutes
"a message whose text contains an in-progress stage marker is classified
unfinished whenever its date is within the lookback window". -/
theorem c8_counterexample :
    pyContains c8_bad_text "Скачивание медиа" = true
    ∧ (0 : Int) ≤ 100
    ∧ text_starts_with_transcription_command c8_bad_text = true
    ∧ scan_has_transcription c8_bad_text = true
    ∧ c8_bad_msg.out = true
    ∧ c8_bad_msg.replyToMsgId.isSome = true
    ∧ scan_messages 0 "large" [c8_bad_msg] = [] :=
  ⟨by decide, by decide, by decide, by decide, rfl, rfl, by decide⟩

/-- C8, amended: a message examined by the scan whose text contains the
plain in-progress header `🤖 Транскрипция:` together with an in-progress
stage marker is classified unfinished; any classified message (of either
class) is dated at or after the lookback cutoff — one dated before the
cutoff (or any message behind it in the newest-first iteration) is never
classified at all; and a message classifying as unfinished is resumed,
never treated as inferior-quality. -/
theorem c8_resume_classification (cutoff : Int) (defaultModel : String) :
    (∀ text : String,
        pyContains text "🤖 Транскрипция:" = true →
        (pyContains text "Скачивание медиа" || pyContains text "Конвертация медиа"
          || pyContains text "Извлечение текста") = true →
        is_unfinished_transcription_message text = true)
    ∧ (∀ (msgs : List ScanMessage) (m : ScanMessage) (c : ResumeClass),
        (m, c) ∈ scan_messages cutoff defaultModel msgs →
        ∃ d, m.date = some d ∧ cutoff ≤ d)
    ∧ (∀ (msgs : List ScanMessage) (m : ScanMessage) (c : ResumeClass),
        (m, c) ∈ scan_messages cutoff defaultModel msgs →
        is_unfinished_transcription_message m.text = true → c = ResumeClass.resume) := by
  refine ⟨?_, ?_, ?_⟩
  · intro text h1 h2
    have htext : decide (text = "") = false := by
      rcases h : decide (text = "") with _ | _
      · rfl
      · exfalso
        have hx : text = "" := of_decide_eq_true h
        rw [hx] at h1
        exact absurd h1 (by decide)
    unfold is_unfinished_transcription_message
    rw [h1, htext]
    simp only [Bool.not_true, Bool.or_false, if_false]
    rw [h2]
    simp
  · intro msgs m c h
    exact (scan_messages_mem cutoff defaultModel msgs m c h).1
  · intro msgs m c h hunf
    exact classify_unfinished defaultModel m.text hunf c
      (scan_messages_mem cutoff defaultModel msgs m c h).2

/-- An unfinished status message as the program itself writes one. -/
def c8_good_msg : ScanMessage :=
  { date := some 100, out := true,
    text := "/transcription 🤖 Транскрипция: Скачивание медиа 50%\nДата завершения скачивания: —",
    replyToMsgId := some 7 }

/-- C8, witness: the genuine in-progress message is classified `resume`. -/
theorem c8_resume_classification_witness :
    pyContains c8_good_msg.text "🤖 Транскрипция:" = true
    ∧ (c8_good_msg, ResumeClass.resume) ∈ scan_messages 0 "large" [c8_good_msg]
    ∧ is_unfinished_transcription_message c8_good_msg.text = true
    ∧ ((c8_good_msg, ResumeClass.resume) ∈ scan_messages 0 "large" [c8_good_msg] →
        ∃ d, c8_good_msg.date = some d ∧ (0 : Int) ≤ d) :=
  ⟨by decide, by decide, by decide,
    fun h => (c8_resume_classification 0 "large").2.1 [c8_good_msg] c8_good_msg ResumeClass.resume h⟩

/-! ## Scheduler step lemmas -/

/-- The dispatch block never touches the queue or the in-queue set. -/
theorem dispatchStep_queue (interval : ℚ) (s : SchedState) (tEdit : ℚ) (first retry : TransportResult) :
    (dispatchStep interval s tEdit first retry).q = s.q
    ∧ (dispatchStep interval s tEdit first retry).inQueue = s.inQueue := by
  unfold dispatchStep
  split
  · exact ⟨rfl, rfl⟩
  · split
    · exact ⟨rfl, rfl⟩
    · dsimp only
      split
      · exact ⟨rfl, rfl⟩
      · split
        · exact ⟨rfl, rfl⟩
        · split
          · exact ⟨rfl, rfl⟩
          · split
            · exact ⟨rfl, rfl⟩
            · exact ⟨rfl, rfl⟩

/-- The dispatch block either leaves the dispatch log and `_last_edit_at`
alone, or (only when the pacing guard holds) prepends one edit stamped
`tEdit` and sets `_last_edit_at` to it. -/
theorem dispatchStep_log (interval : ℚ) (s : SchedState) (tEdit : ℚ) (first retry : TransportResult) :
    ((dispatchStep interval s tEdit first retry).dispatched = s.dispatched
      ∧ (dispatchStep interval s tEdit first retry).lastEditAt = s.lastEditAt)
    ∨ (s.lastEditAt + interval ≤ tEdit
      ∧ ∃ k t, (dispatchStep interval s tEdit first retry).dispatched = (tEdit, k, t) :: s.dispatched
        ∧ (dispatchStep interval s tEdit first retry).lastEditAt = tEdit) := by
  unfold dispatchStep
  split
  · left; exact ⟨rfl, rfl⟩
  · rename_i k hk
    split
    · left; exact ⟨rfl, rfl⟩
    · rename_i hguard
      dsimp only
      split
      · left; exact ⟨rfl, rfl⟩
      · rename_i t htext
        split
        · left; exact ⟨rfl, rfl⟩
        · split
          · left; exact ⟨rfl, rfl⟩
          · split
            · right; exact ⟨not_lt.mp hguard, k, t, rfl, rfl⟩
            · left; exact ⟨rfl, rfl⟩

/-- `request` never touches the dispatch log or `_last_edit_at`. -/
theorem requestStep_log (s : SchedState) (k : SchedKey) (t : String) (a b : Option String) :
    (requestStep s k t a b).dispatched = s.dispatched
    ∧ (requestStep s k t a b).lastEditAt = s.lastEditAt := by
  unfold requestStep
  split <;> exact ⟨rfl, rfl⟩

/-- The dequeue never touches the dispatch log or `_last_edit_at`. -/
theorem popStep_log (s : SchedState) :
    (popStep s).dispatched = s.dispatched ∧ (popStep s).lastEditAt = s.lastEditAt := by
  unfold popStep
  split
  · exact ⟨rfl, rfl⟩
  · split <;> exact ⟨rfl, rfl⟩

/-- A high-priority edit never touches the low-priority dispatch log or
`_last_edit_at` (it is exempt from the global pacing bookkeeping). -/
theorem highEditStep_log (s : SchedState) (k : SchedKey) (t : String) (tEdit : ℚ) (first retry : TransportResult) :
    (highEditStep s k t tEdit first retry).dispatched = s.dispatched
    ∧ (highEditStep s k t tEdit first retry).lastEditAt = s.lastEditAt := by
  unfold highEditStep
  split <;> exact ⟨rfl, rfl⟩

/-- Pacing invariant: logged dispatch stamps are pairwise `interval` apart
and the newest one is at most `_last_edit_at`. -/
def pacingInvOf (interval : ℚ) (dispatched : List (ℚ × SchedKey × String)) (last : ℚ) : Prop :=
  paced interval (dispatched.map Prod.fst) ∧ ∀ x ∈ dispatched.head?, x.1 ≤ last

/-- Every scheduler step preserves the pacing invariant. -/
theorem step_pacing (interval : ℚ) (s : SchedState) (e : SchedEvent)
    (h : pacingInvOf interval s.dispatched s.lastEditAt) :
    pacingInvOf interval (step interval s e).dispatched (step interval s e).lastEditAt := by
  cases e with
  | request k t a b =>
    have hl := requestStep_log s k t a b
    show pacingInvOf interval (requestStep s k t a b).dispatched (requestStep s k t a b).lastEditAt
    rw [hl.1, hl.2]; exact h
  | clear k => exact h
  | pop =>
    have hl := popStep_log s
    show pacingInvOf interval (popStep s).dispatched (popStep s).lastEditAt
    rw [hl.1, hl.2]; exact h
  | highEdit k t tE f r =>
    have hl := highEditStep_log s k t tE f r
    show pacingInvOf interval (highEditStep s k t tE f r).dispatched (highEditStep s k t tE f r).lastEditAt
    rw [hl.1, hl.2]; exact h
  | dispatch tE f r =>
    show pacingInvOf interval (dispatchStep interval s tE f r).dispatched (dispatchStep interval s tE f r).lastEditAt
    rcases dispatchStep_log interval s tE f r with ⟨hd, hl⟩ | ⟨hg, k, t, hd, hl⟩
    · rw [hd, hl]; exact h
    · rw [hd, hl]
      constructor
      · rw [List.map_cons]
        refine List.chain'_cons'.mpr ⟨?_, h.1⟩
        intro y hy
        rw [List.head?_map] at hy
        rcases hh : s.dispatched.head? with _ | x
        · rw [hh] at hy; simp at hy
        · rw [hh] at hy
          have hyx : x.1 = y := by simpa using hy
          have hx1 : x.1 ≤ s.lastEditAt := h.2 x (by rw [hh]; rfl)
          rw [← hyx]
          calc x.1 + interval ≤ s.lastEditAt + interval := add_le_add_right hx1 interval
            _ ≤ tE := hg
      · intro x hx
        have hxx : (tE, k, t) = x := by simpa using hx
        rw [← hxx]

/-- The pacing invariant holds along any trace. -/
theorem runTrace_pacing (interval : ℚ) :
    ∀ (es : List SchedEvent) (s : SchedState),
      pacingInvOf interval s.dispatched s.lastEditAt →
      pacingInvOf interval (runTrace interval s es).dispatched (runTrace interval s es).lastEditAt := by
  intro es
  induction es with
  | nil => intro s h; exact h
  | cons e es ih => intro s h; exact ih (step interval s e) (step_pacing interval s e h)

/-! ## C3: pacing -/

/-- C3: along any scheduler trace from the initial state, consecutive
successful low-priority dispatch timestamps are separated by at least the
configured interval; high-priority edits are exempt — they leave
`_last_edit_at` untouched and are recorded at ANY timestamp `tEdit`
(no pacing precondition relates `tEdit` to `_last_edit_at`), delayed only
by the transport back-off sleep of `n + 1` seconds on a rate limit. -/
theorem c3_pacing (interval : ℚ) :
    (∀ es : List SchedEvent,
        paced interval (((runTrace interval initState es).dispatched).map Prod.fst))
    ∧ (∀ (s : SchedState) (k : SchedKey) (t : String) (tEdit : ℚ) (first retry : TransportResult),
        (step interval s (.highEdit k t tEdit first retry)).lastEditAt = s.lastEditAt)
    ∧ (∀ (s : SchedState) (k : SchedKey) (t : String) (tEdit : ℚ) (first retry : TransportResult),
        (safe_edit_run first retry).ok = true →
        (step interval s (.highEdit k t tEdit first retry)).highDispatched
          = (tEdit, k, pySlice t TELEGRAM_MAX_MESSAGE_LEN) :: s.highDispatched)
    ∧ (∀ (n : Nat) (retry : TransportResult),
        (safe_edit_run (.floodWait n) retry).sleeps = [n + 1]) := by
  refine ⟨?_, ?_, ?_, fun n retry => by cases retry <;> rfl⟩
  · intro es
    have hinit : pacingInvOf interval initState.dispatched initState.lastEditAt := by
      constructor
      · simp [paced, initState]
      · intro x hx; simp [initState] at hx
    exact (runTrace_pacing interval es initState hinit).1
  · intro s k t tE f r
    show (highEditStep s k t tE f r).lastEditAt = s.lastEditAt
    unfold highEditStep
    split <;> rfl
  · intro s k t tE f r hok
    show (highEditStep s k t tE f r).highDispatched = _
    unfold highEditStep
    rw [if_pos hok]
    rfl

/-- C3, witness: a high-priority edit lands at timestamp 5 with a 120-second
interval and `_last_edit_at = 0` — well inside the pacing window — and is
still recorded. -/
theorem c3_pacing_witness :
    (safe_edit_run .success .success).ok = true
    ∧ (step 120 initState (.highEdit (1, 2) "done" 5 .success .success)).highDispatched
        = (5, (1, 2), pySlice "done" TELEGRAM_MAX_MESSAGE_LEN) :: initState.highDispatched :=
  ⟨rfl, (c3_pacing 120).2.2.1 initState (1, 2) "done" 5 .success .success rfl⟩

/-! ## C1: coalescing -/


/-- `clear_for_message` leaves `_q` untouched and filters the in-queue set. -/
theorem clearStep_queue (s : SchedState) (k' : SchedKey) :
    (clearStep s k').q = s.q
    ∧ (clearStep s k').inQueue = s.inQueue.filter (fun k2 => k2 ≠ k') :=
  ⟨rfl, rfl⟩

/-- A high-priority edit leaves `_q` untouched and filters the in-queue set
(through its initial `clear_for_message`). -/
theorem highEditStep_queue (s : SchedState) (k' : SchedKey) (t : String) (tEdit : ℚ) (first retry : TransportResult) :
    (highEditStep s k' t tEdit first retry).q = s.q
    ∧ (highEditStep s k' t tEdit first retry).inQueue = s.inQueue.filter (fun k2 => k2 ≠ k') := by
  unfold highEditStep
  split <;> exact ⟨rfl, rfl⟩

/-- `request` preserves the one-queue-slot-per-key invariant. -/
theorem requestStep_count (s : SchedState) (k' : SchedKey) (t : String) (a b : Option String) (k : SchedKey)
    (hinv : s.q.count k = if k ∈ s.inQueue then 1 else 0) :
    (requestStep s k' t a b).q.count k = if k ∈ (requestStep s k' t a b).inQueue then 1 else 0 := by
  unfold requestStep
  split
  · exact hinv
  · rename_i hnotin
    dsimp only
    rw [List.count_append]
    by_cases hkk : k = k'
    · subst hkk
      rw [if_neg hnotin] at hinv
      rw [hinv]
      simp [List.mem_cons]
    · have hc : List.count k [k'] = 0 := by simp [List.count_cons, hkk]
      rw [hc]
      have hmem : (k ∈ k' :: s.inQueue) ↔ k ∈ s.inQueue := by simp [List.mem_cons, hkk]
      simp only [hmem, Nat.add_zero]
      exact hinv

/-- Removing another key from a key set does not affect membership. -/
theorem filter_ne_mem_iff (l : List SchedKey) (k k' : SchedKey) (hkk : k ≠ k') :
    (k ∈ l.filter (fun k2 => k2 ≠ k')) ↔ k ∈ l := by
  simp [List.mem_filter, hkk]

/-- The dequeue preserves the one-queue-slot-per-key invariant. -/
theorem popStep_count (s : SchedState) (k : SchedKey)
    (hinv : s.q.count k = if k ∈ s.inQueue then 1 else 0) :
    (popStep s).q.count k = if k ∈ (popStep s).inQueue then 1 else 0 := by
  unfold popStep
  split
  · exact hinv
  · split
    · exact hinv
    · rename_i k' rest hq
      dsimp only
      by_cases hkk : k = k'
      · subst hkk
        have hmem : k ∈ s.inQueue := by
          by_contra hno
          rw [if_neg hno, hq, List.count_cons_self] at hinv
          omega
        rw [if_pos hmem, hq, List.count_cons_self] at hinv
        have hnot : ¬ k ∈ s.inQueue.filter (fun k2 => k2 ≠ k) := by
          simp [List.mem_filter]
        rw [if_neg hnot]
        omega
      · have hbeq : (k' == k) = false := by
          simp only [beq_eq_false_iff_ne]
          exact fun h => hkk h.symm
        rw [hq, List.count_cons, hbeq] at hinv
        simp only [Bool.false_eq_true, if_false, Nat.add_zero] at hinv
        simp only [filter_ne_mem_iff s.inQueue k k' hkk]
        exact hinv

/-- Any event that does not clear key `k` preserves `k`'s one-queue-slot
invariant. -/
theorem step_queueInv (interval : ℚ) (s : SchedState) (e : SchedEvent) (k : SchedKey)
    (he : touchesClear k e = false)
    (hinv : s.q.count k = if k ∈ s.inQueue then 1 else 0) :
    (step interval s e).q.count k = if k ∈ (step interval s e).inQueue then 1 else 0 := by
  cases e with
  | request k' t a b => exact requestStep_count s k' t a b k hinv
  | clear k' =>
    have hkk : k ≠ k' := fun h => by
      rw [touchesClear, h] at he
      simp at he
    show (clearStep s k').q.count k = if k ∈ (clearStep s k').inQueue then 1 else 0
    rw [(clearStep_queue s k').1, (clearStep_queue s k').2]
    simp only [filter_ne_mem_iff s.inQueue k k' hkk]
    exact hinv
  | pop => exact popStep_count s k hinv
  | dispatch tE f r =>
    show (dispatchStep interval s tE f r).q.count k
        = if k ∈ (dispatchStep interval s tE f r).inQueue then 1 else 0
    rw [(dispatchStep_queue interval s tE f r).1, (dispatchStep_queue interval s tE f r).2]
    exact hinv
  | highEdit k' t tE f r =>
    have hkk : k ≠ k' := fun h => by
      rw [touchesClear, h] at he
      simp at he
    show (highEditStep s k' t tE f r).q.count k
        = if k ∈ (highEditStep s k' t tE f r).inQueue then 1 else 0
    rw [(highEditStep_queue s k' t tE f r).1, (highEditStep_queue s k' t tE f r).2]
    simp only [filter_ne_mem_iff s.inQueue k k' hkk]
    exact hinv

/-- The one-queue-slot invariant holds along any `clear`-free trace. -/
theorem runTrace_queueInv (interval : ℚ) (k : SchedKey) :
    ∀ (es : List SchedEvent) (s : SchedState),
      (∀ e ∈ es, touchesClear k e = false) →
      s.q.count k = (if k ∈ s.inQueue then 1 else 0) →
      (runTrace interval s es).q.count k = if k ∈ (runTrace interval s es).inQueue then 1 else 0 := by
  intro es
  induction es with
  | nil => intro s _ hinv; exact hinv
  | cons e es ih =>
    intro s hes hinv
    exact ih (step interval s e) (fun e' he' => hes e' (List.mem_cons_of_mem e he'))
      (step_queueInv interval s e k (hes e (List.mem_cons_self e es)) hinv)

/-- After a burst of requests for one key, the stored pending text is the
last request's text. -/
theorem applyRequests_pending (interval : ℚ) (k : SchedKey) :
    ∀ (ts : List String) (t' : String) (s : SchedState),
      ts.getLast? = some t' → (applyRequests interval k ts s).pending k = some t' := by
  intro ts
  induction ts with
  | nil => intro t' s h; exact absurd h (by simp)
  | cons t ts ih =>
    intro t' s h
    cases ts with
    | nil =>
      simp at h
      show (step interval s (.request k t none none)).pending k = some t'
      show (requestStep s k t none none).pending k = some t'
      unfold requestStep
      split <;> simp [h]
    | cons t2 ts2 =>
      rw [List.getLast?_cons_cons] at h
      exact ih t' (step interval s (.request k t none none)) h

/-- A dispatch of the currently held key sends exactly the pending text
stored at dispatch time. -/
theorem dispatch_of_current (interval : ℚ) (s : SchedState) (k : SchedKey) (t : String)
    (tEdit : ℚ) (first retry : TransportResult)
    (hcur : s.current = some k) (hpend : s.pending k = some t) (ht : t ≠ "")
    (hcanc : k ∉ s.cancelled) (hg : s.lastEditAt + interval ≤ tEdit)
    (hok : (safe_edit_run first retry).ok = true) :
    (step interval s (.dispatch tEdit first retry)).dispatched = (tEdit, k, t) :: s.dispatched := by
  show (dispatchStep interval s tEdit first retry).dispatched = (tEdit, k, t) :: s.dispatched
  unfold dispatchStep
  split
  · rename_i hnone
    rw [hcur] at hnone
    exact Option.noConfusion hnone
  · rename_i k2 hk2
    rw [hcur] at hk2
    have hk2' : k = k2 := Option.some.inj hk2
    subst hk2'
    split
    · rename_i hlt
      exact absurd hlt (not_lt.mpr hg)
    · dsimp only
      split
      · rename_i hnone
        rw [hpend] at hnone
        exact Option.noConfusion hnone
      · rename_i t2 ht2
        rw [hpend] at ht2
        have ht2' : t = t2 := Option.some.inj ht2
        subst ht2'
        split
        · rename_i h0
          exact absurd h0 ht
        · rfl

/-- C1: along any trace without `clear_for_message` (or high-priority edits)
for key `k`, the scheduler holds at most one dispatch-queue slot for `k`;
a request for an already-queued key only overwrites the stored text
(the queue is unchanged); after any burst of requests the stored text is
the last one; and the dispatch that fires for `k` sends exactly the stored
pending text — so the text dispatched is the last request's text. -/
theorem c1_coalescing (interval : ℚ) (es : List SchedEvent) (k : SchedKey)
    (hes : ∀ e ∈ es, touchesClear k e = false) :
    (runTrace interval initState es).q.count k ≤ 1
    ∧ (∀ (s : SchedState) (t : String) (a b : Option String), k ∈ s.inQueue →
        (step interval s (.request k t a b)).q = s.q
        ∧ (step interval s (.request k t a b)).pending k = some t)
    ∧ (∀ (ts : List String) (t' : String) (s : SchedState), ts.getLast? = some t' →
        (applyRequests interval k ts s).pending k = some t')
    ∧ (∀ (s : SchedState) (t : String) (tEdit : ℚ) (first retry : TransportResult),
        s.current = some k → s.pending k = some t → t ≠ "" → k ∉ s.cancelled →
        s.lastEditAt + interval ≤ tEdit → (safe_edit_run first retry).ok = true →
        (step interval s (.dispatch tEdit first retry)).dispatched = (tEdit, k, t) :: s.dispatched) := by
  refine ⟨?_, ?_, applyRequests_pending interval k, ?_⟩
  · have h := runTrace_queueInv interval k es initState hes (by simp [initState])
    rw [h]
    split
    · exact le_refl 1
    · exact Nat.zero_le 1
  · intro s t a b hin
    constructor
    · show (requestStep s k t a b).q = s.q
      unfold requestStep
      rw [if_pos hin]
    · show (requestStep s k t a b).pending k = some t
      unfold requestStep
      split <;> simp
  · intro s t tE f r hcur hpend ht hcanc hg hok
    exact dispatch_of_current interval s k t tE f r hcur hpend ht hcanc hg hok

/-- C1, witness: two coalesced requests for one key, then a dequeue. -/
theorem c1_coalescing_witness :
    (∀ e ∈ ([.request (1, 2) "a" none none, .request (1, 2) "b" none none, .pop] : List SchedEvent),
        touchesClear (1, 2) e = false)
    ∧ (runTrace 120 initState
        [.request (1, 2) "a" none none, .request (1, 2) "b" none none, .pop]).q.count (1, 2) ≤ 1 := by
  have hes : ∀ e ∈ ([.request (1, 2) "a" none none, .request (1, 2) "b" none none, .pop] : List SchedEvent),
      touchesClear (1, 2) e = false := by decide
  exact ⟨hes, (c1_coalescing 120 [.request (1, 2) "a" none none, .request (1, 2) "b" none none, .pop]
    (1, 2) hes).1⟩

/-! ## C2: cancellation suppression — refuted by the FloodWait backoff race

The re-checks of lines 609-620 run BEFORE `_safe_edit` is entered.  If the
first `edit_message` raises `FloodWaitError`, `_safe_edit` sleeps (line
565) and then retries the bare `edit_message` (line 566) with the text it
already holds, consulting neither `_pending` nor `_cancelled` again — so a
`clear_for_message` plus high-priority edit landing during that sleep does
not stop the retry from re-sending the stale pre-cancellation text. -/

/-- A first edit attempt that passes every guard and re-check but hits a
FloodWait: the pending text is already popped, nothing is dispatched yet,
`_last_edit_at` is untouched, and the loop parks in the backoff sleep with
the fetched text in hand (source lines 609-626 and 563-565). -/
theorem dispatchTry_floodWait (interval : ℚ) (pe : SchedKey → Option String)
    (me : SchedKey → Option (Option String × Option String))
    (iq ca qq : List SchedKey) (la : ℚ) (disp hdisp : List (ℚ × SchedKey × String))
    (k : SchedKey) (t : String) (tEdit : ℚ) (n : Nat)
    (hg : la + interval ≤ tEdit) (hpend : pe k = some t) (ht : t ≠ "") (hcanc : k ∉ ca) :
    dispatchTryStep interval ⟨pe, me, iq, ca, qq, la, .sleeping k, disp, hdisp⟩ tEdit (.floodWait n)
      = ⟨fun k' => if k' = k then none else pe k',
          fun k' => if k' = k then none else me k', iq, ca, qq, la, .backoff k t, disp, hdisp⟩ := by
  unfold dispatchTryStep
  dsimp only
  rw [if_neg (not_lt.mpr hg), hpend]
  dsimp only
  rw [if_neg ht, if_neg hcanc]

/-- State of the `c2BugTrace` run just before the first edit attempt: the
loop holds key (1, 2) through its pacing sleep, pending text "stale". -/
def c2S2 : SchedStateR :=
  { pending := fun k' => if k' = (1, 2) then some "stale" else none
    meta := fun k' => if k' = (1, 2) then some (none, none) else none
    inQueue := []
    cancelled := []
    q := []
    lastEditAt := 0
    phase := .sleeping (1, 2)
    dispatched := []
    highDispatched := [] }

/-- State while the loop sleeps out the FloodWait backoff: pending and meta
are popped, and the already-fetched text "stale" is parked in the phase. -/
def c2S3 : SchedStateR :=
  { c2S2 with
    pending := fun k' => if k' = (1, 2) then none else c2S2.pending k'
    meta := fun k' => if k' = (1, 2) then none else c2S2.meta k'
    phase := .backoff (1, 2) "stale" }

/-- State after the high-priority edit that lands during the backoff: the
key is cancelled, its pending slot is empty, the final text is recorded —
yet the loop still holds "stale" in its backoff phase. -/
def c2S4 : SchedStateR :=
  { c2S3 with
    pending := fun k' => if k' = (1, 2) then none else c2S3.pending k'
    meta := fun k' => if k' = (1, 2) then none else c2S3.meta k'
    cancelled := [(1, 2)]
    highDispatched := [(210, (1, 2), pySlice "FINAL" TELEGRAM_MAX_MESSAGE_LEN)] }

/-- Final state of `c2BugTrace`: the backoff retry re-sent the
pre-cancellation text and even stamped `_last_edit_at`. -/
def c2S5 : SchedStateR :=
  { c2S4 with
    lastEditAt := 231
    phase := .idle
    dispatched := [(231, (1, 2), "stale")] }

/-- C2: REFUTED — the cancellation does NOT suppress every pre-cancellation
text.  Along `c2BugTrace`, after the high-priority edit (which runs
`clear_for_message` first, so at that point the key is cancelled, its
pending slot is empty, and the final text "FINAL" has been applied at
t = 210), the FloodWait retry at t = 231 still dispatches the text "stale"
that was requested before the cancellation — overwriting the final message,
because the bare retry on source line 566 re-checks neither `_pending` nor
`_cancelled`. -/
theorem c2_flood_retry_bug :
    (runTraceR 120 initStateR c2BugTrace).dispatched = [(231, (1, 2), "stale")]
    ∧ (runTraceR 120 initStateR c2BugTrace).lastEditAt = 231
    ∧ (runTraceR 120 initStateR (c2BugTrace.take 4)).highDispatched
        = [(210, (1, 2), pySlice "FINAL" TELEGRAM_MAX_MESSAGE_LEN)]
    ∧ (1, 2) ∈ (runTraceR 120 initStateR (c2BugTrace.take 4)).cancelled
    ∧ (runTraceR 120 initStateR (c2BugTrace.take 4)).pending (1, 2) = none
    ∧ (210 : ℚ) < 231
    ∧ (runTraceR 120 initStateR c2BugTrace).highDispatched
        = [(210, (1, 2), pySlice "FINAL" TELEGRAM_MAX_MESSAGE_LEN)] := by
  have e3 : stepR 120 c2S2 (.dispatchTry 200 (.floodWait 30)) = c2S3 :=
    dispatchTry_floodWait 120 c2S2.pending c2S2.meta c2S2.inQueue c2S2.cancelled c2S2.q
      c2S2.lastEditAt c2S2.dispatched c2S2.highDispatched (1, 2) "stale" 200 30
      (by show (0 : ℚ) + 120 ≤ 200; norm_num) rfl (by decide) (by decide)
  have h4 : runTraceR 120 initStateR (c2BugTrace.take 4) = c2S4 := by
    show stepR 120 (stepR 120 (runTraceR 120 initStateR (c2BugTrace.take 2))
        (.dispatchTry 200 (.floodWait 30)))
        (.highEdit (1, 2) "FINAL" 210 .success .success) = c2S4
    rw [show runTraceR 120 initStateR (c2BugTrace.take 2) = c2S2 from rfl, e3]
    rfl
  have h5 : runTraceR 120 initStateR c2BugTrace = c2S5 := by
    show stepR 120 (runTraceR 120 initStateR (c2BugTrace.take 4)) (.dispatchRetry 231 true) = c2S5
    rw [h4]
    rfl
  refine ⟨?_, ?_, ?_, ?_, ?_, by norm_num, ?_⟩
  · rw [h5]; rfl
  · rw [h5]; rfl
  · rw [h4]; rfl
  · rw [h4]; decide
  · rw [h4]; decide
  · rw [h5]; rfl

/-- Concrete environment for the C6 witness: a short transcription. -/
def c6WitEnv : JobEnv :=
  { isResume := false, firstEditOk := true, downloadOk := true, convertRc := 0,
    transcribeText := "привет", detectedLang := none, langAllowed := none,
    modelName := "large", finalEditOk := true, unlinkFailures := [] }

/-- C6, witness: the short final message is dispatched inline, untruncated. -/
theorem c6_final_length_policy_witness :
    (job_final_msg c6WitEnv).length ≤ TELEGRAM_MAX_MESSAGE_LEN
    ∧ (process_transcription_job c6WitEnv).highEdits =
        [⟨pySlice initial_progress_text TELEGRAM_MAX_MESSAGE_LEN, none⟩,
          ⟨job_final_msg c6WitEnv, none⟩] :=
  ⟨by decide, (c6_final_length_policy c6WitEnv rfl rfl rfl rfl).1 (by decide)⟩

/-- C7, witness: the projection rule evaluated at the claim's own numbers. -/
theorem c7_eta_rules_witness :
    ((0 : Int) < 50 ∧ (1 : ℚ) / 2 ≤ 10
      ∧ transcribe_eta 50 10 = some ((100 - (50 : ℚ)) / (50 : ℚ) * 10))
    ∧ ((0 : ℚ) < 5 ∧ (1 : ℚ) / 2 ≤ 2
      ∧ dl_eta 5 100 2 = some ((100 - (5 : ℚ)) / 5 * 2)) :=
  ⟨⟨by norm_num, by norm_num, (c7_eta_rules).1 50 10 (by norm_num) (by norm_num)⟩,
    ⟨by norm_num, by norm_num, (c7_eta_rules).2.2.2.2.2.1 5 100 2 (by norm_num) (by norm_num)⟩⟩
